import Mathlib

/-!
# Verification of the NPI tracking dashboard (src/app.py)

Shallow embedding of the data model and the operations of `src/app.py`:
the in-memory category tables (pandas DataFrames loaded at lines 11-13),
the row-key scheme of line 53 (`Project + "_" + SIE + " (" + Risk Level + ")"`),
its inverse used at lines 190-197 and 225-231, the timeline projection of
`create_timeline_plot` (lines 32-116), the click/commit callback
`handle_date_modification` (lines 177-254), and the sheet write-back of
lines 247-249 (`pd.ExcelWriter` in append mode with sheet replacement).

Strings are modelled as Lean `String`s; Python string methods used by the
source (`rsplit(" (", 1)`, `rstrip(")")`, `split("_")`) are given explicit
executable models on `List Char`. Dates that survived the
`pd.to_datetime(..., errors="coerce")` conversion of line 22 are modelled as
`Option Date` (NaT, i.e. an absent or unparseable cell, is `none`).
-/

namespace NPI

/-- A calendar date as held in a datetime64 cell after line 22
`pd.to_datetime` conversion (the time-of-day component is always midnight
for these sheets and is not modelled). -/
structure Date where
  year : Nat
  month : Nat
  day : Nat
deriving DecidableEq, Repr

/-- The fixed milestone date columns, lines 16-18 of app.py. -/
def dateColumns : List String :=
  ["RFQ send date", "DFM close date", "Biz award date",
   "Line installation date", "Line readiness date",
   "First off process date", "C exit date", "TQP date"]

/-- One row of a category DataFrame: identity columns `SIE`, `Project`,
`Risk Level`, the milestone date cells (aligned with `dateColumns`, `none`
for NaT), and the two note columns `Next step plan` and
`Action Items for Cindy`. -/
structure Row where
  sie : String
  project : String
  riskLevel : String
  dates : List (Option Date)
  nextStepPlan : String
  actionItems : String
deriving DecidableEq, Repr

/-- The three global DataFrames loaded at lines 11-13
(`localization_df`, `others_df`, `energy_df`). -/
structure Store where
  localization : List Row
  others : List Row
  energy : List Row
deriving DecidableEq, Repr

/-- A written spreadsheet cell: text, a native date cell, or empty.
`pd.DataFrame.to_excel` writes string columns as text cells, datetime64
columns as native date cells, and NaT as an empty cell. -/
inductive Cell where
  | s : String → Cell
  | d : Date → Cell
  | empty : Cell
deriving DecidableEq, Repr

/-- The backing .xlsx file `NPI_Tracking.xlsx`, as a sequence of named
sheets of cells. -/
abbrev Workbook := List (String × List (List Cell))

/- ### Python string-method models -/

/-- Model of Python `s.rsplit(sep, 1)` for a two-character separator
`[a, b]`, returning the parts before and after the rightmost occurrence,
or `none` when the separator does not occur (in which case the source
indexing `[1]` raises IndexError). The recursion prefers a split found in
the tail, so the returned occurrence is the rightmost one, exactly as
`rsplit` with `maxsplit=1`. -/
def rsplitPair (a b : Char) : List Char → Option (List Char × List Char)
  | [] => none
  | x :: rest =>
    match rsplitPair a b rest with
    | some (pre, post) => some (x :: pre, post)
    | none =>
      match rest with
      | y :: rest2 => if x == a && y == b then some ([], rest2) else none
      | [] => none

/-- Whether the two-character pattern `[a, b]` occurs in a list. -/
def containsPair (a b : Char) : List Char → Bool
  | [] => false
  | x :: rest =>
    (match rest with
     | y :: _ => x == a && y == b
     | [] => false) || containsPair a b rest

/-- Model of Python `s.rstrip(")")`: remove every trailing `)`. -/
def dropTrailingParens (l : List Char) : List Char :=
  (l.reverse.dropWhile (fun c => c == ')')).reverse

/-- Model of Python `s.split(c)` for a one-character separator: split at
every occurrence, keeping empty parts, so that `"".split` gives `[""]`
and `"_".split("_")` gives `["", ""]`. -/
def splitChar (c : Char) : List Char → List (List Char)
  | [] => [[]]
  | x :: rest =>
    if x == c then [] :: splitChar c rest
    else
      match splitChar c rest with
      | h :: t => (x :: h) :: t
      | [] => [[x]]

/- ### Row Key Codec -/

/-- The row key built at line 53:
`df_melted["Project"] + "_" + df_melted["SIE"] + " (" + df_melted["Risk Level"] + ")"`. -/
def encodeKey (r : Row) : String :=
  r.project ++ "_" ++ r.sie ++ " (" ++ r.riskLevel ++ ")"

/-- The key parser of lines 190-197 (repeated verbatim at lines 225-231):
`selected_project.rsplit(" (", 1)` followed by `rstrip(")")` on the second
part and `project_name, sie = project_sie.split("_")` on the first.
`none` models the `except (IndexError, ValueError)` branch: IndexError
when `" ("` does not occur, ValueError when the part before it does not
split into exactly two pieces at `"_"`. -/
def decodeKey (key : String) : Option (String × String × String) :=
  match rsplitPair ' ' '(' key.toList with
  | none => none
  | some (projectSie, rest) =>
    match splitChar '_' projectSie with
    | [p, s] => some (String.mk p, String.mk s, String.mk (dropTrailingParens rest))
    | _ => none

example : decodeKey "Acme_S1 (Open)" = some ("Acme", "S1", "Open") := by decide
example : decodeKey "ProjectOnly" = none := by decide
example : decodeKey "A_B_C (R)" = none := by decide
example : decodeKey "A_B (C" = some ("A", "B", "C") := by decide

/- ### Timeline projection (create_timeline_plot, lines 32-116) -/

/-- Line 25-26: `df[df["Risk Level"] != "Closed"]`. -/
def filter_risk_level (df : List Row) : List Row :=
  df.filter (fun r => r.riskLevel != "Closed")

/-- The melted entries contributed by one row (lines 43-53): one
`(Project_SIE_Risk, Milestone, Date)` entry per milestone column, the key
being the concatenation of line 53. pandas stacks the melted frame
column-by-column; the ordering of entries carries no information for the
properties below and is modelled row-by-row. -/
def meltRow (r : Row) : List (String × String × Option Date) :=
  (dateColumns.zip r.dates).map (fun c => (encodeKey r, c.1, c.2))

/-- The scatter points of the figure built by `create_timeline_plot`
(lines 32-116): rows whose `Risk Level` is `"Closed"` are removed (line
34), the table is melted to one entry per (row, milestone column) pair
(lines 43-53), and `px.scatter` (line 56) renders a marker only for
entries whose `Date` is present — a NaT date serializes to a null x
coordinate, for which plotly draws (and makes clickable) no point. Chart
cosmetics (the two vertical lines, annotations, axis layout, lines
59-114) carry no row data and are not modelled. -/
def create_timeline_plot (df : List Row) : List (String × String × Date) :=
  ((filter_risk_level df).flatMap meltRow).filterMap
    (fun e => match e.2.2 with
      | some dt => some (e.1, e.2.1, dt)
      | none => none)

/- ### The callback handle_date_modification (lines 163-254) -/

/-- The DataFrame selection chain repeated verbatim at lines 201-206,
236-241 and 264-269: `Localization` and `Others` select their tables, any
other value falls into the bare `else` and selects `energy_df`. -/
def selectDf (st : Store) (sheetName : String) : List Row :=
  if sheetName = "Localization" then st.localization
  else if sheetName = "Others" then st.others
  else st.energy

/-- Writing the (locally named) `df` back into the global table it aliases:
in the source `df` is a reference to one of the three module-level
DataFrames, chosen by the same if/elif chain, and is mutated in place. -/
def setDf (st : Store) (sheetName : String) (df : List Row) : Store :=
  if sheetName = "Localization" then { st with localization := df }
  else if sheetName = "Others" then { st with others := df }
  else { st with energy := df }

/-- The row filter of lines 209 and 244-245:
`(df["Project"] == project_name) & (df["SIE"] == sie) & (df["Risk Level"] == risk_level)`. -/
def rowMatches (p s rl : String) (r : Row) : Bool :=
  r.project == p && r.sie == s && r.riskLevel == rl

/-- The six outputs of `handle_date_modification` (lines 164-169): the two
section styles are modelled by their visibility, the rest are the strings
returned for the input value, the two text areas and `output-text`. -/
structure CallbackResult where
  dateSectionVisible : Bool
  newDateValue : String
  editSectionVisible : Bool
  nextStepPlanValue : String
  actionItemsValue : String
  outputText : String
deriving DecidableEq, Repr

/-- The error output of lines 198 and 233. -/
def parseErrorResult : CallbackResult :=
  ⟨false, "", false, "", "", "Error: Unable to parse the selected project."⟩

/-- The click branch of the callback (lines 184-218): decode the clicked
point y value, look the triple up in the selected table, and either
surface an error or open both edit sections populated from the first
matching row (`.values[0]`, lines 214-215). The dispatch on
`dash.callback_context` and the `if clickData:` guard are framework
wiring around this action and are not modelled. -/
def handleClick (st : Store) (sheetName selectedProject currentDate : String) :
    CallbackResult :=
  match decodeKey selectedProject with
  | none => parseErrorResult
  | some (p, s, rl) =>
    match (selectDf st sheetName).filter (rowMatches p s rl) with
    | [] => ⟨false, "", false, "", "",
             "Error: No matching project found for " ++ selectedProject⟩
    | r :: _ => ⟨true, currentDate, true, r.nextStepPlan, r.actionItems, ""⟩

/- ### Persistence (lines 247-249) -/

/-- How `to_excel` writes one milestone cell: a datetime64 value becomes a
native date cell, NaT becomes an empty cell. No text reformatting occurs
on the write path. -/
def dateCell : Option Date → Cell
  | some dt => Cell.d dt
  | none => Cell.empty

/-- The header row written by `to_excel` (index=False keeps the columns,
drops the index). -/
def headerCells : List Cell :=
  Cell.s "SIE" :: Cell.s "Project" :: Cell.s "Risk Level" ::
    (dateColumns.map Cell.s ++ [Cell.s "Next step plan", Cell.s "Action Items for Cindy"])

/-- One written data row, in the column order of `Row`. -/
def rowToCells (r : Row) : List Cell :=
  Cell.s r.sie :: Cell.s r.project :: Cell.s r.riskLevel ::
    (r.dates.map dateCell ++ [Cell.s r.nextStepPlan, Cell.s r.actionItems])

/-- The full sheet `df.to_excel(writer, sheet_name=..., index=False)`
produces: a header row followed by one row per DataFrame row. -/
def sheetToCells (df : List Row) : List (List Cell) :=
  headerCells :: df.map rowToCells

/-- `pd.ExcelWriter` with append mode and sheet replacement (line 248): the sheet named `name` is replaced
in place (keeping its position) if present, appended otherwise; every
other sheet of the file is left as it was. -/
def replaceSheet (wb : Workbook) (name : String) (data : List (List Cell)) : Workbook :=
  match wb with
  | [] => [(name, data)]
  | (n, d) :: rest =>
    if n = name then (name, data) :: rest else (n, d) :: replaceSheet rest name data

/-- Look a sheet up by name in the backing file. -/
def lookupSheet : Workbook → String → Option (List (List Cell))
  | [], _ => none
  | (n, d) :: rest, name => if n = name then some d else lookupSheet rest name

/-- The commit branch of the callback together with its effects on the
global tables and the backing file (lines 221-252): re-decode the stored
stored click y value; on failure return the parse error; on success set the two
note columns on every matching row of the selected table (lines 244-245 —
there is no emptiness check on this path), rewrite the selected sheet of
the file (lines 247-249), and return the confirmation message (line 252).
Note the State list of the callback (lines 172-175) carries only the two note
texts, the stored clickData and the sheet name: the `new-date-input` value
is not among the inputs of this callback, and `submit-date-btn` is wired
to no callback at all, so no date text ever reaches this code. -/
structure CommitOutcome where
  store : Store
  file : Workbook
  ui : CallbackResult
deriving DecidableEq, Repr

/-- The per-row update of lines 244-245: a matching row gets both note columns
overwritten, any other row is untouched. -/
def updateRow (p s rl nsp ai : String) (r : Row) : Row :=
  if rowMatches p s rl r then { r with nextStepPlan := nsp, actionItems := ai } else r

/-- The confirmation message of line 252. -/
def savedMessage (selectedProject : String) : String :=
  "The \x27Next Step Plan\x27 and \x27Action Items for Cindy\x27 for " ++
    selectedProject ++ " have been successfully saved."

def commitEdit (st : Store) (wb : Workbook)
    (sheetName selectedProject nsp ai : String) : CommitOutcome :=
  match decodeKey selectedProject with
  | none => ⟨st, wb, parseErrorResult⟩
  | some (p, s, rl) =>
    let df := (selectDf st sheetName).map (updateRow p s rl nsp ai)
    ⟨setDf st sheetName df,
     replaceSheet wb sheetName (sheetToCells df),
     ⟨false, "", false, "", "", savedMessage selectedProject⟩⟩

/-- The graph callback `update_graph` (lines 259-270): the same selection
chain as lines 201-206, then `create_timeline_plot`. -/
def update_graph (st : Store) (sheetName : String) : List (String × String × Date) :=
  create_timeline_plot (selectDf st sheetName)

/-- Modelled from the spec: the canonical `YYYY-MM-DD` text form that
§4.4 says milestone dates are reformatted to before writing. No such
formatting exists in src/app.py; this definition exists only to compare
the written cells against the words of the spec. -/
def canonicalDateText (dt : Date) : String :=
  (if dt.year < 10 then "000" else if dt.year < 100 then "00"
   else if dt.year < 1000 then "0" else "") ++ toString dt.year ++ "-" ++
  (if dt.month < 10 then "0" else "") ++ toString dt.month ++ "-" ++
  (if dt.day < 10 then "0" else "") ++ toString dt.day

example : canonicalDateText ⟨2024, 6, 29⟩ = "2024-06-29" := by decide

/- ### Sample data for concrete evaluations -/

/-- A sample row as in the end-to-end scenario of spec section 8. -/
def rowA : Row :=
  { sie := "S1", project := "Acme", riskLevel := "Open",
    dates := [some ⟨2024, 1, 15⟩, none], nextStepPlan := "old plan",
    actionItems := "old items" }

/-- A closed row sharing the Energy table with `rowA`. -/
def rowB : Row :=
  { sie := "S2", project := "Beta", riskLevel := "Closed",
    dates := [some ⟨2024, 3, 1⟩, some ⟨2024, 4, 2⟩], nextStepPlan := "b plan",
    actionItems := "b items" }

def storeA : Store := { localization := [], others := [], energy := [rowA, rowB] }

def wbA : Workbook :=
  [("Localization", [headerCells]), ("Others", [headerCells]),
   ("Energy", sheetToCells [rowA, rowB])]

/- ### Helper lemmas -/

theorem updateRow_dates (p s rl nsp ai : String) (r : Row) :
    (updateRow p s rl nsp ai r).dates = r.dates := by
  unfold updateRow; split <;> rfl

theorem updateRow_of_not_matches (p s rl nsp ai : String) (r : Row)
    (h : rowMatches p s rl r = false) : updateRow p s rl nsp ai r = r := by
  simp [updateRow, h]

theorem map_updateRow_of_no_match (p s rl nsp ai : String) (l : List Row)
    (h : ∀ r ∈ l, rowMatches p s rl r = false) :
    l.map (updateRow p s rl nsp ai) = l := by
  induction l with
  | nil => rfl
  | cons x xs ih =>
    simp only [List.map_cons]
    rw [updateRow_of_not_matches _ _ _ _ _ _ (h x (List.mem_cons_self x xs)),
        ih (fun r hr => h r (List.mem_cons_of_mem x hr))]

theorem selectDf_setDf (st : Store) (name : String) (df : List Row) :
    selectDf (setDf st name df) name = df := by
  unfold selectDf setDf
  by_cases h1 : name = "Localization" <;> by_cases h2 : name = "Others" <;>
    simp [h1, h2]

theorem setDf_selectDf (st : Store) (name : String) :
    setDf st name (selectDf st name) = st := by
  unfold selectDf setDf
  by_cases h1 : name = "Localization" <;> by_cases h2 : name = "Others" <;>
    simp [h1, h2]

theorem lookupSheet_replaceSheet_same (wb : Workbook) (name : String)
    (data : List (List Cell)) :
    lookupSheet (replaceSheet wb name data) name = some data := by
  induction wb with
  | nil => simp [replaceSheet, lookupSheet]
  | cons hd rest ih =>
    obtain ⟨n, d⟩ := hd
    by_cases h : n = name <;> simp [replaceSheet, lookupSheet, h, ih]

theorem lookupSheet_replaceSheet_other (wb : Workbook) (name other : String)
    (data : List (List Cell)) (h : other ≠ name) :
    lookupSheet (replaceSheet wb name data) other = lookupSheet wb other := by
  induction wb with
  | nil => simp [replaceSheet, lookupSheet, Ne.symm h]
  | cons hd rest ih =>
    obtain ⟨n, d⟩ := hd
    by_cases hn : n = name
    · subst hn
      simp [replaceSheet, lookupSheet, Ne.symm h]
    · simp [replaceSheet, lookupSheet, hn, ih]

theorem map_dates_map_updateRow (p s rl nsp ai : String) (l : List Row) :
    (l.map (updateRow p s rl nsp ai)).map Row.dates = l.map Row.dates := by
  induction l with
  | nil => rfl
  | cons x xs ih => simp [updateRow_dates, ih]

/- ### Codec lemmas -/

theorem rsplitPair_cons (a b x : Char) (rest : List Char) :
    rsplitPair a b (x :: rest) =
      match rsplitPair a b rest with
      | some (pre, post) => some (x :: pre, post)
      | none =>
        match rest with
        | y :: rest2 => if x == a && y == b then some ([], rest2) else none
        | [] => none := rfl

theorem containsPair_false_rsplit (a b : Char) (l : List Char)
    (h : containsPair a b l = false) : rsplitPair a b l = none := by
  induction l with
  | nil => rfl
  | cons x rest ih =>
    simp only [containsPair, Bool.or_eq_false_iff] at h
    have hr := ih h.2
    rw [rsplitPair_cons, hr]
    cases rest with
    | nil => rfl
    | cons y rest2 =>
      have hxy : (x == a && y == b) = false := h.1
      simp [hxy]

theorem rsplitPair_cons_of_ne (a b x : Char) (l : List Char)
    (hx : (x == a) = false) (h : rsplitPair a b l = none) :
    rsplitPair a b (x :: l) = none := by
  rw [rsplitPair_cons, h]
  cases l with
  | nil => rfl
  | cons y l2 => simp [hx]

theorem containsPair_append_single (a b c : Char) (hc : (c == b) = false) :
    ∀ l : List Char, containsPair a b l = false →
      containsPair a b (l ++ [c]) = false := by
  intro l
  induction l with
  | nil => intro _; simp [containsPair, hc]
  | cons x rest ih =>
    intro h
    simp only [containsPair, Bool.or_eq_false_iff] at h
    have htail := ih h.2
    cases rest with
    | nil => simp [containsPair, hc]
    | cons y rest2 =>
      simp only [List.cons_append, containsPair, Bool.or_eq_false_iff] at htail ⊢
      exact ⟨h.1, htail⟩

theorem rsplitPair_append (a b : Char) (R : List Char)
    (hR : rsplitPair a b (b :: R) = none) :
    ∀ L, rsplitPair a b (L ++ a :: b :: R) = some (L, R) := by
  intro L
  induction L with
  | nil =>
    rw [List.nil_append, rsplitPair_cons, hR]
    simp
  | cons x L ih =>
    rw [List.cons_append, rsplitPair_cons, ih]

theorem dropTrailingParens_append (l : List Char)
    (h : l.getLast? ≠ some ')') : dropTrailingParens (l ++ [')']) = l := by
  unfold dropTrailingParens
  rw [List.reverse_append]
  simp only [List.reverse_cons, List.reverse_nil, List.nil_append,
    List.singleton_append, List.dropWhile_cons]
  simp only [beq_self_eq_true, if_true]
  cases hrev : l.reverse with
  | nil =>
    simp [List.reverse_eq_nil_iff.mp hrev]
  | cons c t =>
    have hlast : l.getLast? = some c := by
      rw [← List.head?_reverse, hrev]; rfl
    have hcne : (c == ')') = false := by
      rw [beq_eq_false_iff_ne]
      intro e
      exact h (by rw [hlast, e])
    rw [List.dropWhile_cons, hcne]
    simp only [Bool.false_eq_true, if_false]
    rw [← hrev, List.reverse_reverse]

theorem splitChar_of_not_mem (c : Char) (l : List Char) (h : c ∉ l) :
    splitChar c l = [l] := by
  induction l with
  | nil => rfl
  | cons x rest ih =>
    have hx : (x == c) = false := by
      rw [beq_eq_false_iff_ne]
      intro e; exact h (e ▸ List.mem_cons_self x rest)
    have hrest := ih (fun hm => h (List.mem_cons_of_mem x hm))
    simp [splitChar, hx, hrest]

theorem splitChar_append (c : Char) (P S : List Char) (h : c ∉ P) :
    splitChar c (P ++ c :: S) = P :: splitChar c S := by
  induction P with
  | nil => simp [splitChar]
  | cons x P ih =>
    have hx : (x == c) = false := by
      rw [beq_eq_false_iff_ne]
      intro e; exact h (e ▸ List.mem_cons_self x P)
    have hP := ih (fun hm => h (List.mem_cons_of_mem x hm))
    simp [splitChar, hx, hP]

theorem toList_append (s t : String) : (s ++ t).toList = s.toList ++ t.toList := by
  simp [String.toList, String.data_append]

theorem decodeKey_encode_of_clean (p s rl : String)
    (h1 : '_' ∉ p.toList) (h2 : '_' ∉ s.toList)
    (h3 : containsPair ' ' '(' rl.toList = false)
    (h4 : rl.toList.getLast? ≠ some ')') :
    decodeKey (p ++ "_" ++ s ++ " (" ++ rl ++ ")") = some (p, s, rl) := by
  have hkey : (p ++ "_" ++ s ++ " (" ++ rl ++ ")").toList
      = (p.toList ++ '_' :: s.toList) ++ ' ' :: '(' :: (rl.toList ++ [')']) := by
    simp only [toList_append]
    have e1 : "_".toList = ['_'] := rfl
    have e2 : " (".toList = [' ', '('] := rfl
    have e3 : ")".toList = [')'] := rfl
    rw [e1, e2, e3]
    simp
  have hnoRL : rsplitPair ' ' '(' (rl.toList ++ [')']) = none := by
    apply containsPair_false_rsplit
    exact containsPair_append_single ' ' '(' ')' (by decide) rl.toList h3
  have hnoRL2 : rsplitPair ' ' '(' ('(' :: (rl.toList ++ [')'])) = none :=
    rsplitPair_cons_of_ne ' ' '(' '(' _ (by decide) hnoRL
  have hsplit : rsplitPair ' ' '('
        ((p.toList ++ '_' :: s.toList) ++ ' ' :: '(' :: (rl.toList ++ [')']))
      = some (p.toList ++ '_' :: s.toList, rl.toList ++ [')']) :=
    rsplitPair_append ' ' '(' _ hnoRL2 _
  have hund : splitChar '_' (p.toList ++ '_' :: s.toList) = [p.toList, s.toList] := by
    rw [splitChar_append '_' _ _ h1, splitChar_of_not_mem '_' _ h2]
  unfold decodeKey
  rw [hkey, hsplit]
  simp only [hund]
  rw [dropTrailingParens_append _ h4]
  rfl

/- ### Claim theorems -/

/-- C1 (code bug): the claim says committing a date edit with text
"2024-06-29" sets the milestone field of the selected row and persists that
date as text. In src/app.py no commit can change any milestone date: the
new-date-input value is not among the States of handle_date_modification
(lines 172-175) and submit-date-btn (line 138) is wired to no callback, so
the commit leaves the milestone date columns of all three tables exactly
as they were, for every possible input. -/
theorem commit_preserves_all_dates (st : Store) (wb : Workbook)
    (sheetName sp nsp ai : String) :
    (commitEdit st wb sheetName sp nsp ai).store.localization.map Row.dates =
        st.localization.map Row.dates ∧
    (commitEdit st wb sheetName sp nsp ai).store.others.map Row.dates =
        st.others.map Row.dates ∧
    (commitEdit st wb sheetName sp nsp ai).store.energy.map Row.dates =
        st.energy.map Row.dates := by
  cases hdec : decodeKey sp with
  | none => simp [commitEdit, hdec]
  | some t =>
    obtain ⟨p, s, rl⟩ := t
    unfold commitEdit
    rw [hdec]
    unfold setDf
    by_cases hL : sheetName = "Localization" <;>
      by_cases hO : sheetName = "Others" <;>
        simp [hL, hO, selectDf, ← List.map_map, map_dates_map_updateRow]

/-- C2 counterexample: the round-trip invariant fails as soon as an
identity field contains the separator. For the row with project "A_B",
SIE "S" and risk level "R" the encoded key is "A_B_S (R)", whose prefix
splits into three parts at the underscore, so the decode of lines 190-197
takes the ValueError branch and yields no triple at all. -/
theorem decode_encode_fails_on_underscore :
    decodeKey (encodeKey ⟨"S", "A_B", "R", [], "", ""⟩) = none ∧
    decodeKey (encodeKey ⟨"S", "A_B", "R", [], "", ""⟩) ≠
      some ("A_B", "S", "R") := by decide

/-- C2 (amended): decoding the encoded key returns exactly the
(project, SIE, risk level) triple for every row whose project and SIE
contain no underscore and whose risk level neither contains the
two-character separator " (" nor ends with ")". (Outside these conditions
the round-trip fails, see the counterexample.) -/
theorem decode_encode_roundtrip (r : Row)
    (h1 : '_' ∉ r.project.toList) (h2 : '_' ∉ r.sie.toList)
    (h3 : containsPair ' ' '(' r.riskLevel.toList = false)
    (h4 : r.riskLevel.toList.getLast? ≠ some ')') :
    decodeKey (encodeKey r) = some (r.project, r.sie, r.riskLevel) :=
  decodeKey_encode_of_clean r.project r.sie r.riskLevel h1 h2 h3 h4

theorem decode_encode_roundtrip_witness :
    decodeKey (encodeKey rowA) = some ("Acme", "S1", "Open") :=
  decode_encode_roundtrip rowA (by decide) (by decide) (by decide) (by decide)

/-- C3: committing a note edit on a table in which exactly one row matches
the decoded key replaces exactly the two note fields of that row, keeps every
other row of the table as it was, writes the selected sheet as the
serialization of the updated table, and leaves every other sheet of the
backing file untouched. -/
theorem note_commit_frame (st : Store) (wb : Workbook)
    (sheetName sp nsp ai p s rl other : String)
    (pre post : List Row) (r : Row)
    (hdec : decodeKey sp = some (p, s, rl))
    (hdf : selectDf st sheetName = pre ++ r :: post)
    (hr : rowMatches p s rl r = true)
    (hpre : ∀ x ∈ pre, rowMatches p s rl x = false)
    (hpost : ∀ x ∈ post, rowMatches p s rl x = false)
    (hother : other ≠ sheetName) :
    selectDf (commitEdit st wb sheetName sp nsp ai).store sheetName =
      pre ++ { r with nextStepPlan := nsp, actionItems := ai } :: post ∧
    lookupSheet (commitEdit st wb sheetName sp nsp ai).file sheetName =
      some (sheetToCells (pre ++ { r with nextStepPlan := nsp, actionItems := ai } :: post)) ∧
    lookupSheet (commitEdit st wb sheetName sp nsp ai).file other =
      lookupSheet wb other := by
  have hmap : (selectDf st sheetName).map (updateRow p s rl nsp ai) =
      pre ++ { r with nextStepPlan := nsp, actionItems := ai } :: post := by
    rw [hdf, List.map_append, List.map_cons,
        map_updateRow_of_no_match _ _ _ _ _ _ hpre,
        map_updateRow_of_no_match _ _ _ _ _ _ hpost]
    simp [updateRow, hr]
  unfold commitEdit
  rw [hdec]
  simp only [hmap]
  exact ⟨selectDf_setDf st sheetName _,
         lookupSheet_replaceSheet_same wb sheetName _,
         lookupSheet_replaceSheet_other wb sheetName other _ hother⟩

theorem note_commit_frame_witness :
    selectDf (commitEdit storeA wbA "Energy" "Acme_S1 (Open)" "new plan" "new items").store
        "Energy" =
      [{ rowA with nextStepPlan := "new plan", actionItems := "new items" }, rowB] ∧
    lookupSheet (commitEdit storeA wbA "Energy" "Acme_S1 (Open)" "new plan" "new items").file
        "Energy" =
      some (sheetToCells
        [{ rowA with nextStepPlan := "new plan", actionItems := "new items" }, rowB]) ∧
    lookupSheet (commitEdit storeA wbA "Energy" "Acme_S1 (Open)" "new plan" "new items").file
        "Localization" =
      lookupSheet wbA "Localization" :=
  note_commit_frame storeA wbA "Energy" "Acme_S1 (Open)" "new plan" "new items"
    "Acme" "S1" "Open" "Localization" [] [rowB] rowA
    (by decide) (by decide) (by decide) (by decide) (by decide) (by decide)

/-- C4 counterexample: the claim says the persisted sheet holds milestone
dates reformatted to "YYYY-MM-DD" text. After a commit the written Energy
sheet holds, at the first milestone column of the first data row, a native date
cell carrying the internal date value, not a text cell with the canonical
form: src/app.py performs no reformatting before `df.to_excel` (lines
247-249). -/
theorem written_date_cell_not_text :
    (lookupSheet (commitEdit storeA wbA "Energy" "Acme_S1 (Open)" "p2" "a2").file
        "Energy").bind (fun sheet => sheet[1]?.bind fun cells => cells[3]?) =
      some (Cell.d ⟨2024, 1, 15⟩) ∧
    Cell.d ⟨2024, 1, 15⟩ ≠ Cell.s (canonicalDateText ⟨2024, 1, 15⟩) := by decide

/-- C4 (amended): the Persistence Gateway writes every milestone date
field through unchanged, as a native date cell holding the internal date
value — no reformatting to text occurs — and a field that is absent (NaT)
is written as an empty cell, hence remains absent. Cell (i+1, j+3) of the
written sheet corresponds to row i, milestone column j of the table. -/
theorem dates_written_unreformatted (df : List Row) (i j : Nat) (r : Row)
    (od : Option Date) (hi : df[i]? = some r) (hj : r.dates[j]? = some od) :
    ((sheetToCells df)[i + 1]?.bind fun cells => cells[j + 3]?) =
      some (dateCell od) := by
  have hrow : (sheetToCells df)[i + 1]? = some (rowToCells r) := by
    unfold sheetToCells
    rw [List.getElem?_cons_succ, List.getElem?_map, hi]
    rfl
  rw [hrow]
  show (rowToCells r)[j + 3]? = some (dateCell od)
  have hjlt : j < (r.dates.map dateCell).length := by
    rw [List.length_map]
    exact (List.getElem?_eq_some.mp hj).1
  unfold rowToCells
  rw [show j + 3 = j + 2 + 1 from rfl, List.getElem?_cons_succ,
      show j + 2 = j + 1 + 1 from rfl, List.getElem?_cons_succ,
      List.getElem?_cons_succ,
      List.getElem?_append_left hjlt, List.getElem?_map, hj]
  rfl

theorem dates_written_unreformatted_witness :
    ((sheetToCells [rowA, rowB])[2]?.bind fun cells => cells[4]?) =
      some (dateCell (some ⟨2024, 4, 2⟩)) :=
  dates_written_unreformatted [rowA, rowB] 1 1 rowB (some ⟨2024, 4, 2⟩)
    (by decide) (by decide)

/-- C5 counterexample: a key that does not match the expected pattern —
it has no trailing status parenthesis, and is produced by no encoding —
still decodes successfully instead of yielding the error outcome: the
rstrip(")") of line 194 deletes nothing from "C" and the split succeeds.
The second conjunct shows the well-formed key for the decoded triple is a
different string. -/
theorem decode_accepts_missing_paren :
    decodeKey "A_B (C" = some ("A", "B", "C") ∧
    encodeKey ⟨"B", "A", "C", [], "", ""⟩ ≠ "A_B (C" := by decide

/-- C5 (amended): decoding is total — every key yields either a triple or
the explicit caught-error outcome, never an uncaught exception — and the
error outcome occurs exactly when the separator " (" does not occur in
the key (the IndexError branch) or the part before its last occurrence
does not split into exactly two pieces at "_" (the ValueError branch).
Keys violating only the trailing ")" of the pattern are not rejected (see
the counterexample). -/
theorem decode_error_characterization (key : String) :
    decodeKey key = none ↔
      (rsplitPair ' ' '(' key.toList = none ∨
       ∃ projectSie rest, rsplitPair ' ' '(' key.toList = some (projectSie, rest) ∧
         (splitChar '_' projectSie).length ≠ 2) := by
  unfold decodeKey
  cases hsp : rsplitPair ' ' '(' key.toList with
  | none => simp
  | some pr =>
    obtain ⟨projectSie, rest⟩ := pr
    simp only [Option.some.injEq, reduceCtorEq, false_or]
    constructor
    · intro h
      refine ⟨projectSie, rest, rfl, ?_⟩
      cases hsc : splitChar '_' projectSie with
      | nil => simp
      | cons a t =>
        cases t with
        | nil => simp
        | cons b t2 =>
          cases t2 with
          | nil =>
            rw [hsc] at h
            exact absurd h (by simp)
          | cons c t3 => simp [List.length_cons]
    · rintro ⟨pSie2, rest2, heq, hlen⟩
      obtain ⟨e1, e2⟩ : projectSie = pSie2 ∧ rest = rest2 := by
        have := heq
        simp at this
        exact this
      subst e1; subst e2
      cases hsc : splitChar '_' projectSie with
      | nil => rfl
      | cons a t =>
        cases t with
        | nil => rfl
        | cons b t2 =>
          cases t2 with
          | nil =>
            rw [hsc] at hlen
            simp at hlen
          | cons c t3 => rfl

theorem decode_error_characterization_witness :
    decodeKey "ProjectOnly" = none :=
  (decode_error_characterization "ProjectOnly").mpr (Or.inl (by decide))

/-- C6: every point of the plotted projection originates in a row of the
table whose risk level is not the excluded value "Closed" and in a
milestone cell whose date is present; consequently no point is produced
for a Closed row, and an absent or unparseable date cell (NaT after line
22 coercion) contributes no point. -/
theorem plot_points_sound (df : List Row) (k m : String) (dt : Date)
    (h : (k, m, dt) ∈ create_timeline_plot df) :
    ∃ r, r ∈ df ∧ r.riskLevel ≠ "Closed" ∧ k = encodeKey r ∧
      (m, some dt) ∈ dateColumns.zip r.dates := by
  unfold create_timeline_plot filter_risk_level at h
  rw [List.mem_filterMap] at h
  obtain ⟨e, he, hfe⟩ := h
  rw [List.mem_flatMap] at he
  obtain ⟨r, hrf, hre⟩ := he
  rw [List.mem_filter] at hrf
  obtain ⟨hrdf, hropen⟩ := hrf
  unfold meltRow at hre
  rw [List.mem_map] at hre
  obtain ⟨c, hcz, hce⟩ := hre
  refine ⟨r, hrdf, by simpa using hropen, ?_, ?_⟩
  · cases hod : c.2 with
    | none =>
      rw [← hce, hod] at hfe
      simp at hfe
    | some dt2 =>
      rw [← hce, hod] at hfe
      simp only [Option.some.injEq] at hfe
      obtain ⟨hk, _, _⟩ := Prod.mk.injEq .. ▸ hfe
      exact hk.symm
  · cases hod : c.2 with
    | none =>
      rw [← hce, hod] at hfe
      simp at hfe
    | some dt2 =>
      rw [← hce, hod] at hfe
      simp only [Option.some.injEq, Prod.mk.injEq] at hfe
      obtain ⟨hk, hm, hdt⟩ := hfe
      have : c = (m, some dt) := by
        rw [Prod.ext_iff]
        exact ⟨hm, by rw [hod, hdt]⟩
      rw [← this]
      exact hcz

theorem plot_points_sound_witness :
    ∃ r, r ∈ storeA.energy ∧ r.riskLevel ≠ "Closed" ∧
      "Acme_S1 (Open)" = encodeKey r ∧
      ("RFQ send date", some (⟨2024, 1, 15⟩ : Date)) ∈ dateColumns.zip r.dates :=
  plot_points_sound storeA.energy "Acme_S1 (Open)" "RFQ send date" ⟨2024, 1, 15⟩
    (by decide)

/-- C7 counterexample: the claim says an unparseable date text leads to
the milestone field being stored as absent. Committing for the row
(Acme, S1, Open) — whatever is in the date box, since the commit callback
has no access to it — leaves the milestone fields of the Energy table
exactly as before: the first cell is still the present date 2024-01-15,
not absent. -/
theorem unparseable_date_not_stored_absent :
    (commitEdit storeA wbA "Energy" "Acme_S1 (Open)" "new plan" "new items").store.energy.map
        Row.dates =
      [[some ⟨2024, 1, 15⟩, none], [some ⟨2024, 3, 1⟩, some ⟨2024, 4, 2⟩]] ∧
    (commitEdit storeA wbA "Energy" "Acme_S1 (Open)" "new plan" "new items").store.energy.map
        Row.dates = storeA.energy.map Row.dates := by decide

/-- C7 (amended): submitting with any date text — unparseable or not — is
indeed not blocked and raises no error: a commit whose key decodes
returns the success confirmation. But the milestone field is not stored
as absent; the date text never reaches the commit callback (new-date-input
is not among its States, lines 172-175), so the selected table
milestone date fields keep their previous values. -/
theorem commit_ignores_date_text (st : Store) (wb : Workbook)
    (sheetName sp nsp ai p s rl : String)
    (hdec : decodeKey sp = some (p, s, rl)) :
    (commitEdit st wb sheetName sp nsp ai).ui.outputText = savedMessage sp ∧
    (selectDf (commitEdit st wb sheetName sp nsp ai).store sheetName).map Row.dates =
      (selectDf st sheetName).map Row.dates := by
  unfold commitEdit
  rw [hdec]
  exact ⟨rfl, by rw [selectDf_setDf, map_dates_map_updateRow]⟩

theorem commit_ignores_date_text_witness :
    (commitEdit storeA wbA "Energy" "Acme_S1 (Open)" "np" "na").ui.outputText =
      savedMessage "Acme_S1 (Open)" ∧
    (selectDf (commitEdit storeA wbA "Energy" "Acme_S1 (Open)" "np" "na").store
        "Energy").map Row.dates =
      (selectDf storeA "Energy").map Row.dates :=
  commit_ignores_date_text storeA wbA "Energy" "Acme_S1 (Open)" "np" "na"
    "Acme" "S1" "Open" (by decide)

/-- C8: on a point click whose key decodes but matches no row of the
selected table, the callback returns with both edit sections hidden
(Idle) and an error message naming the clicked key, instead of opening
the form. -/
theorem click_no_match_idle (st : Store) (sheetName sp currentDate p s rl : String)
    (hdec : decodeKey sp = some (p, s, rl))
    (hmatch : (selectDf st sheetName).filter (rowMatches p s rl) = []) :
    handleClick st sheetName sp currentDate =
      ⟨false, "", false, "", "", "Error: No matching project found for " ++ sp⟩ := by
  unfold handleClick
  rw [hdec]
  dsimp only
  rw [hmatch]

theorem click_no_match_idle_witness :
    handleClick storeA "Energy" "Ghost_S9 (Open)" "2024-01-15" =
      ⟨false, "", false, "", "",
       "Error: No matching project found for Ghost_S9 (Open)"⟩ :=
  click_no_match_idle storeA "Energy" "Ghost_S9 (Open)" "2024-01-15"
    "Ghost" "S9" "Open" (by decide) (by decide)

/-- C9: the commit path performs no row-existence check: when the decoded
key matches no row of the selected table, the commit leaves the in-memory
store exactly as it was, still rewrites the selected sheet of the backing
file (with the unchanged table), and still reports the success
confirmation message. -/
theorem commit_no_match_still_writes (st : Store) (wb : Workbook)
    (sheetName sp nsp ai p s rl : String)
    (hdec : decodeKey sp = some (p, s, rl))
    (hmatch : ∀ r ∈ selectDf st sheetName, rowMatches p s rl r = false) :
    (commitEdit st wb sheetName sp nsp ai).store = st ∧
    lookupSheet (commitEdit st wb sheetName sp nsp ai).file sheetName =
      some (sheetToCells (selectDf st sheetName)) ∧
    (commitEdit st wb sheetName sp nsp ai).ui.outputText = savedMessage sp := by
  have hmap := map_updateRow_of_no_match p s rl nsp ai _ hmatch
  unfold commitEdit
  rw [hdec]
  simp only [hmap]
  exact ⟨setDf_selectDf st sheetName,
         lookupSheet_replaceSheet_same wb sheetName _, by trivial⟩

theorem commit_no_match_still_writes_witness :
    (commitEdit storeA wbA "Energy" "Ghost_S9 (Open)" "np" "na").store = storeA ∧
    lookupSheet (commitEdit storeA wbA "Energy" "Ghost_S9 (Open)" "np" "na").file
        "Energy" = some (sheetToCells (selectDf storeA "Energy")) ∧
    (commitEdit storeA wbA "Energy" "Ghost_S9 (Open)" "np" "na").ui.outputText =
      savedMessage "Ghost_S9 (Open)" :=
  commit_no_match_still_writes storeA wbA "Energy" "Ghost_S9 (Open)" "np" "na"
    "Ghost" "S9" "Open" (by decide) (by decide)

/-- C10: any category-selector value other than "Localization" and
"Others" — including arbitrary unknown strings — falls into the bare else
of the repeated selection chains, so both the graph-update path and the
edit/commit path silently operate on the Energy table (reading it via
selectDf and writing it back via setDf), with no validation of the name. -/
theorem unknown_category_selects_energy (st : Store) (name : String) (df : List Row)
    (h1 : name ≠ "Localization") (h2 : name ≠ "Others") :
    selectDf st name = st.energy ∧
    setDf st name df = { st with energy := df } ∧
    update_graph st name = create_timeline_plot st.energy := by
  unfold update_graph selectDf setDf
  simp [h1, h2]

theorem unknown_category_selects_energy_witness :
    selectDf storeA "Budget" = storeA.energy ∧
    setDf storeA "Budget" [] = { storeA with energy := [] } ∧
    update_graph storeA "Budget" = create_timeline_plot storeA.energy :=
  unknown_category_selects_energy storeA "Budget" [] (by decide) (by decide)

end NPI
